import Mathlib

/-!
# Verification of the http-utils request helpers

Shallow embedding of the three Go source files of `vlkalashnikov/http-utils`:

* `src/unnamed/part_000` — package `utils`, the full variant (bearer token,
  custom transport, caller timeout, multipart file upload);
* `src/unnamed/part_001` — package `utils`, the variant without the caller
  timeout parameter and without the file-upload functions;
* `src/http-utils.go` — package `httputils`, the smallest variant (no token,
  no transport, no timeout).

Go strings are modelled as `List Char` (structurally recursive operations, so
every concrete run evaluates inside the kernel); Go byte slices as `List Nat`.
The platform services the code relies on (the Go HTTP client, `net/url`
parsing, query re-encoding, the JSON/XML codecs, the multipart boundary) are
abstracted into a `Platform` record of functions; `sendHttpReq` and the entry
points are translated statement by statement against that record.  A few
observation points are recorded in the outcome structures: the request value
handed to `client.Do`, the client timeout, and (for the wrappers) the method
and header map passed to the dispatcher.
-/

set_option autoImplicit false

namespace HttpUtils

/-- A Go string value, as a list of characters. -/
abbrev Str := List Char

/-- A Go string literal. -/
def str (x : String) : Str := x.data

/-- Byte sequences: a Go `[]byte`. -/
abbrev Bytes := List Nat

/-- Go's `[]byte(s)` / `string(b)` round trip, for the ASCII fragment used in
this development: each character is its code point. -/
def strBytes (s : Str) : Bytes := s.map Char.toNat

/-- Model of `strings.ToUpper` (ASCII fragment). -/
def goToUpper (s : Str) : Str := s.map Char.toUpper

/-- Model of `strings.TrimSpace`. -/
def goTrim (s : Str) : Str :=
  ((s.dropWhile Char.isWhitespace).reverse.dropWhile Char.isWhitespace).reverse

/-- `strings.TrimSpace(strings.ToUpper(method))`, the method normalization
performed by the entry points. -/
def trimUpper (s : Str) : Str := goTrim (goToUpper s)

/-- A Go `map[string]string`, modelled as an association list whose order
stands for one admissible (unspecified) Go map iteration order. -/
abbrev HMap := List (Str × Str)

/-- `m[k] = v` on a Go string map: overwrite the existing entry for `k`, or
append a fresh one. -/
def mapSet (m : HMap) (k v : Str) : HMap :=
  match m with
  | [] => [(k, v)]
  | (k0, v0) :: rest => if k0 = k then (k, v) :: rest else (k0, v0) :: mapSet rest k v

/-- `v, ok := m[k]` on a Go string map. -/
def mapGet (m : HMap) (k : Str) : Option Str :=
  match m with
  | [] => none
  | (k0, v0) :: rest => if k0 = k then some v0 else mapGet rest k

/-- Minimal model of a parsed `net/url.URL`: everything before the query
delimiter, and the raw query string. -/
structure URLv where
  base : Str
  rawQuery : Str
deriving DecidableEq

/-- Model of `url.URL.String()` for URLs of the shape captured by `URLv`. -/
def urlvToString (u : URLv) : Str :=
  if u.rawQuery.isEmpty then u.base else u.base ++ '?' :: u.rawQuery

/-- Identity of the Go error value carried in `ResourceError.Err` (each error
producing site in the source yields a distinct error value). -/
inductive Cause where
  /-- error returned by `http.NewRequest` -/
  | newReqErr (msg : Str)
  /-- error returned by `url.Parse` inside the query re-encoding block -/
  | reparse
  /-- error returned by `client.Do` -/
  | transportErr (msg : Str)
  /-- error returned by `ioutil.ReadAll` -/
  | readErr (msg : Str)
  /-- `fmt.Errorf("incorrect status code")` -/
  | incorrectStatus
deriving DecidableEq

/-- The `ResourceError` struct shared by all three files.  `Body` is an
`interface{}` in Go; the only value ever stored is `string(data)`, the string
form of the outgoing request body, so it is modelled as `Option Bytes`
(`none` = the zero value `nil`). -/
structure ResourceError where
  url : Str
  httpCode : Int
  message : Str
  body : Option Bytes
  cause : Option Cause
deriving DecidableEq

/-- An `http.Request` as far as this code observes it: method, parsed URL,
body bytes and the header entries added via `Header.Add` / `AddCookie`. -/
structure Request where
  method : Str
  url : URLv
  body : Bytes
  header : List (Str × Str)
deriving DecidableEq

/-- An `http.Client` as far as this code configures it. -/
structure Client where
  timeoutSeconds : Int
  hasTransport : Bool
deriving DecidableEq

instance : DecidableEq (Except Str Bytes) := fun a b =>
  match a, b with
  | Except.error x, Except.error y =>
      if h : x = y then Decidable.isTrue (by rw [h])
      else Decidable.isFalse (by intro hc; injection hc; exact h (by assumption))
  | Except.error _, Except.ok _ =>
      Decidable.isFalse (by intro hc; exact Except.noConfusion hc)
  | Except.ok _, Except.error _ =>
      Decidable.isFalse (by intro hc; exact Except.noConfusion hc)
  | Except.ok x, Except.ok y =>
      if h : x = y then Decidable.isTrue (by rw [h])
      else Decidable.isFalse (by intro hc; injection hc; exact h (by assumption))

/-- An `http.Response` as far as this code observes it: the status code and
the outcome of `ioutil.ReadAll(response.Body)`. -/
structure Response where
  statusCode : Int
  bodyRead : Except Str Bytes
deriving DecidableEq

/-- The platform services used by the code, treated as given: Go's method
validation and URL parser (`net/http.NewRequest`, `net/url.Parse`), the
query-string canonical re-encoding (`Query()` followed by
`url.Values.Encode`), the network round trip (`client.Do` plus reading the
body), the multipart boundary generator, and the JSON/XML decoders (`none` =
decode succeeds, `some msg` = the raw codec error). -/
structure Platform where
  validMethod : Str → Bool
  parseURL : Str → Option URLv
  queryReencode : Str → Str
  doReq : Client → Request → Except Str Response
  boundary : Str
  jsonErr : Bytes → Option Str
  xmlErr : Bytes → Option Str

/-- Model of `net/http.NewRequest`: an empty method defaults to `GET`, the
method is validated, and the URL string is parsed with the same parser as
`net/url.Parse` (`NewRequest` calls `urlpkg.Parse` on its argument). -/
def newRequest (p : Platform) (method urlString : Str) (data : Bytes) :
    Except Str Request :=
  let m := if method.isEmpty then str "GET" else method
  if p.validMethod m then
    match p.parseURL urlString with
    | some u => Except.ok { method := m, url := u, body := data, header := [] }
    | none => Except.error (str "net/url: parse error")
  else Except.error (str "net/http: invalid method")

/-- `request.Header.Add(k, v)` (without Go's header-name canonicalisation,
which no claim depends on). -/
def addHeaderEntry (r : Request) (k v : Str) : Request :=
  { r with header := r.header ++ [(k, v)] }

/-- `request.AddCookie(cookie)`. -/
def addCookie (r : Request) (c : Str) : Request :=
  addHeaderEntry r (str "Cookie") c

/-- `for key, value := range headers { request.Header.Add(key, value) }`. -/
def addHeaders (r : Request) (hs : HMap) : Request :=
  hs.foldl (fun acc kv => addHeaderEntry acc kv.1 kv.2) r

/-- `strings.ContainsAny(urlString, "?")`. -/
def containsQuery (s : Str) : Bool := s.contains '?'

/-- Result of `sendHttpReq` together with two observation points: the request
value handed to `client.Do` (`none` when `Do` is never reached) and the
timeout the client was built with. -/
structure SendOutcome where
  status : Int
  buf : Option Bytes
  err : Option ResourceError
  dispatched : Option Request
  clientTimeout : Int
deriving DecidableEq

/-- The cookie, header-copy and token additions performed on the fresh
request, in source order (`AddCookie` when the cookie is non-nil, the
`Header.Add` loop over `headers`, `Authorization` when the token is
non-empty). -/
def buildRequest (request0 : Request) (cookie : Option Str) (headers : HMap)
    (token : Str) : Request :=
  let request1 := match cookie with
    | some c => addCookie request0 c
    | none => request0
  let request2 := addHeaders request1 headers
  if token ≠ [] then addHeaderEntry request2 (str "Authorization") token else request2

/-- The query re-encoding block shared by all three files: when the URL string
contains `?`, re-parse it and re-encode the query; the result is the new value
of the *local* `urlString` (a parse failure is the early `ResourceError`
return). -/
def reencodeStep (p : Platform) (urlString : Str) : Except ResourceError Str :=
  if containsQuery urlString then
    match p.parseURL urlString with
    | none =>
        Except.error { url := urlString, httpCode := 0, message := [],
                       body := none, cause := some Cause.reparse }
    | some urlTemp =>
        Except.ok (urlvToString { urlTemp with
          rawQuery := p.queryReencode urlTemp.rawQuery })
  else Except.ok urlString

/-- The tail of the dispatcher shared by all three files, from the network
call on: `client.Do`, `ioutil.ReadAll`, then the `StatusCode > 399` check.
`urlString2` is the value the local `urlString` holds at this point; `data`
is the outgoing request body echoed into the status-code error. -/
def dispatchPhase (p : Platform) (client : Client) (request : Request)
    (urlString2 : Str) (data : Bytes) : SendOutcome :=
  match p.doReq client request with
  | Except.error msg =>
      { status := 0, buf := none,
        err := some { url := urlString2, httpCode := 0, message := [],
                      body := none, cause := some (Cause.transportErr msg) },
        dispatched := some request, clientTimeout := client.timeoutSeconds }
  | Except.ok response =>
      match response.bodyRead with
      | Except.error msg =>
          { status := 0, buf := none,
            err := some { url := urlString2, httpCode := response.statusCode,
                          message := [], body := none,
                          cause := some (Cause.readErr msg) },
            dispatched := some request, clientTimeout := client.timeoutSeconds }
      | Except.ok buf =>
          if response.statusCode > 399 then
            { status := response.statusCode, buf := some buf,
              err := some { url := urlString2, httpCode := response.statusCode,
                            message := str "incorrect response.StatusCode",
                            body := some data,
                            cause := some Cause.incorrectStatus },
              dispatched := some request, clientTimeout := client.timeoutSeconds }
          else
            { status := response.statusCode, buf := some buf, err := none,
              dispatched := some request, clientTimeout := client.timeoutSeconds }

/-- A wrapper's returned error: either the dispatcher's `*ResourceError` or
the raw JSON/XML codec error returned by `Unmarshal`. -/
inductive WErr where
  | resource (re : ResourceError)
  | codec (msg : Str)
deriving DecidableEq

/-- Result of an entry-point call, with observation points: the method and the
header map passed to the dispatcher, and the dispatcher's own outcome. -/
structure WrapperOutcome where
  status : Int
  buf : Option Bytes
  err : Option WErr
  methodUsed : Str
  headersUsed : HMap
  sent : SendOutcome
deriving DecidableEq

/-- `if headers == nil { headers = map[...]{"Content-Type": ct} } else {
headers["Content-Type"] = ct }` — the default-header block of every entry
point except the form-XML POST variant. -/
def setHeadersOverwrite (ct : Str) (headers : Option HMap) : HMap :=
  match headers with
  | none => [(str "Content-Type", ct)]
  | some m => mapSet m (str "Content-Type") ct

/-- The form-XML POST variant's default-header block: a non-nil map gets the
content type only when the key is absent. -/
def setHeadersIfAbsent (ct : Str) (headers : Option HMap) : HMap :=
  match headers with
  | none => [(str "Content-Type", ct)]
  | some m =>
      match mapGet m (str "Content-Type") with
      | some _ => m
      | none => mapSet m (str "Content-Type") ct

/-- The shared decode tail of every entry point: a dispatcher error is
returned unchanged; otherwise, when the caller's output structure is non-nil
and the response body is non-empty, the codec runs and its error (possibly
nil) replaces the nil error. -/
def decodeFinish (codecErr : Bytes → Option Str) (structNonNil : Bool)
    (methodUsed : Str) (headersUsed : HMap) (o : SendOutcome) : WrapperOutcome :=
  match o.err with
  | some re =>
      { status := o.status, buf := o.buf, err := some (WErr.resource re),
        methodUsed := methodUsed, headersUsed := headersUsed, sent := o }
  | none =>
      let bs := o.buf.getD []
      if structNonNil && !bs.isEmpty then
        match codecErr bs with
        | some msg =>
            { status := o.status, buf := o.buf, err := some (WErr.codec msg),
              methodUsed := methodUsed, headersUsed := headersUsed, sent := o }
        | none =>
            { status := o.status, buf := o.buf, err := none,
              methodUsed := methodUsed, headersUsed := headersUsed, sent := o }
      else
        { status := o.status, buf := o.buf, err := none,
          methodUsed := methodUsed, headersUsed := headersUsed, sent := o }

/-- The `FileItem` struct of `src/unnamed/part_000`. -/
structure FileItem where
  key : Str
  fileName : Str
  content : Bytes
deriving DecidableEq

/-- One part of a multipart body. -/
inductive Part where
  | textField (key value : Str)
  | filePart (key fileName : Str) (content : Bytes)
deriving DecidableEq

/-- The state of a `multipart.Writer` over a `bytes.Buffer`: the parts written
so far and whether `Close` has been called. -/
structure MultipartState where
  parts : List Part
  closed : Bool
deriving DecidableEq

/-- `writer.WriteField(k, v)`. -/
def writeField (st : MultipartState) (k v : Str) : MultipartState :=
  { st with parts := st.parts ++ [Part.textField k v] }

/-- `writer.CreateFormFile(k, fn)` followed by `fileWriter.Write(content)`
(which never fails over a `bytes.Buffer`). -/
def createFormFileWrite (st : MultipartState) (k fn : Str) (content : Bytes) :
    MultipartState :=
  { st with parts := st.parts ++ [Part.filePart k fn content] }

/-- `writer.Close()`: appends the terminating boundary. -/
def closeWriter (st : MultipartState) : MultipartState := { st with closed := true }

/-- `writer.FormDataContentType()`. -/
def formDataContentType (boundary : Str) : Str :=
  str "multipart/form-data; boundary=" ++ boundary

/-- Serialisation of one multipart part, following `mime/multipart`'s layout
(dash-boundary line, Content-Disposition header, blank line, payload). -/
def partBytes (boundary : Str) (pt : Part) : Bytes :=
  match pt with
  | Part.textField k v =>
      strBytes (str "--" ++ boundary
        ++ str "\r\nContent-Disposition: form-data; name=\"" ++ k
        ++ str "\"\r\n\r\n" ++ v ++ str "\r\n")
  | Part.filePart k fn content =>
      strBytes (str "--" ++ boundary
        ++ str "\r\nContent-Disposition: form-data; name=\"" ++ k
        ++ str "\"; filename=\"" ++ fn
        ++ str "\"\r\nContent-Type: application/octet-stream\r\n\r\n")
      ++ content ++ strBytes (str "\r\n")

/-- `body.Bytes()` of the buffer underlying the multipart writer: the parts in
the order written, followed by the boundary terminator iff the writer was
closed (`mime/multipart.Writer.Close`). -/
def multipartBytes (boundary : Str) (st : MultipartState) : Bytes :=
  (st.parts.map (partBytes boundary)).flatten
    ++ (if st.closed then strBytes (str "--" ++ boundary ++ str "--\r\n") else [])

namespace utils

/-- `src/unnamed/part_000`: `defaultTimeout := 30 * time.Second; if timeout > 0
{ defaultTimeout = time.Duration(timeout) * time.Second }` (in seconds). -/
def effectiveTimeoutSeconds (timeout : Int) : Int :=
  if timeout > 0 then timeout else 30

/-- `src/unnamed/part_000` `sendHttpReq`, statement by statement.  The query
re-encoding block re-assigns the *local* `urlString` only, exactly as in the
source; the request passed to `client.Do` is the one built by
`http.NewRequest` from the original URL string (plus cookie/header/token
additions). -/
def sendHttpReq (p : Platform) (method urlString token : Str) (data : Bytes)
    (headers : HMap) (cookie : Option Str) (transport : Bool) (timeout : Int) :
    SendOutcome :=
  let client : Client :=
    { timeoutSeconds := effectiveTimeoutSeconds timeout, hasTransport := transport }
  match newRequest p method urlString data with
  | Except.error e =>
      { status := 0, buf := none,
        err := some { url := urlString, httpCode := 0, message := [], body := none,
                      cause := some (Cause.newReqErr e) },
        dispatched := none, clientTimeout := client.timeoutSeconds }
  | Except.ok request0 =>
      match reencodeStep p urlString with
      | Except.error re =>
          { status := 0, buf := none, err := some re, dispatched := none,
            clientTimeout := client.timeoutSeconds }
      | Except.ok urlString2 =>
          dispatchPhase p client (buildRequest request0 cookie headers token)
            urlString2 data

/-- `src/unnamed/part_000` `HttpReqAuthXML`: normalize the method, default the
content type (overwriting), dispatch, then XML-decode. -/
def HttpReqAuthXML (p : Platform) (method urlString token : Str) (body : Bytes)
    (headers : Option HMap) (cookie : Option Str) (transport : Bool) (timeout : Int)
    (responseStructNonNil : Bool) : WrapperOutcome :=
  let m := trimUpper method
  let hs := setHeadersOverwrite (str "text/xml") headers
  decodeFinish p.xmlErr responseStructNonNil m hs
    (sendHttpReq p m urlString token body hs cookie transport timeout)

/-- `src/unnamed/part_000` `HttpReqAuthJSON`. -/
def HttpReqAuthJSON (p : Platform) (method urlString token : Str) (body : Bytes)
    (headers : Option HMap) (cookie : Option Str) (transport : Bool) (timeout : Int)
    (responseStructNonNil : Bool) : WrapperOutcome :=
  let m := trimUpper method
  let hs := setHeadersOverwrite (str "application/json") headers
  decodeFinish p.jsonErr responseStructNonNil m hs
    (sendHttpReq p m urlString token body hs cookie transport timeout)

/-- `src/unnamed/part_000` `HttpReqXML` (empty token). -/
def HttpReqXML (p : Platform) (method urlString : Str) (body : Bytes)
    (headers : Option HMap) (cookie : Option Str) (transport : Bool) (timeout : Int)
    (responseStructNonNil : Bool) : WrapperOutcome :=
  let m := trimUpper method
  let hs := setHeadersOverwrite (str "text/xml") headers
  decodeFinish p.xmlErr responseStructNonNil m hs
    (sendHttpReq p m urlString [] body hs cookie transport timeout)

/-- `src/unnamed/part_000` `HttpReqJSON` (empty token). -/
def HttpReqJSON (p : Platform) (method urlString : Str) (body : Bytes)
    (headers : Option HMap) (cookie : Option Str) (transport : Bool) (timeout : Int)
    (responseStructNonNil : Bool) : WrapperOutcome :=
  let m := trimUpper method
  let hs := setHeadersOverwrite (str "application/json") headers
  decodeFinish p.jsonErr responseStructNonNil m hs
    (sendHttpReq p m urlString [] body hs cookie transport timeout)

/-- `src/unnamed/part_000` `HttpReqPostFormJSON`: fixed method POST, no
method normalization statement, form-urlencoded default (overwriting). -/
def HttpReqPostFormJSON (p : Platform) (urlString : Str) (body : Bytes)
    (headers : Option HMap) (cookie : Option Str) (transport : Bool) (timeout : Int)
    (responseStructNonNil : Bool) : WrapperOutcome :=
  let hs := setHeadersOverwrite (str "application/x-www-form-urlencoded") headers
  decodeFinish p.jsonErr responseStructNonNil (str "POST") hs
    (sendHttpReq p (str "POST") urlString [] body hs cookie transport timeout)

/-- `src/unnamed/part_000` `HttpReqPostFormXML`: fixed method POST; the
content type is written only when the key is absent. -/
def HttpReqPostFormXML (p : Platform) (urlString : Str) (body : Bytes)
    (headers : Option HMap) (cookie : Option Str) (transport : Bool) (timeout : Int)
    (responseStructNonNil : Bool) : WrapperOutcome :=
  let hs := setHeadersIfAbsent (str "application/x-www-form-urlencoded") headers
  decodeFinish p.xmlErr responseStructNonNil (str "POST") hs
    (sendHttpReq p (str "POST") urlString [] body hs cookie transport timeout)

/-- `src/unnamed/part_000` `HttpReqPostFile`: write every text field, then the
file field, inject the writer's content type (overwriting), close the writer,
dispatch the buffer's bytes with method POST, JSON-decode the response. -/
def HttpReqPostFile (p : Platform) (urlString : Str) (paramTexts : HMap)
    (paramFile : FileItem) (headers : Option HMap) (cookie : Option Str)
    (transport : Bool) (timeout : Int) (responseStructNonNil : Bool) : WrapperOutcome :=
  let st0 : MultipartState := { parts := [], closed := false }
  let st1 := paramTexts.foldl (fun st kv => writeField st kv.1 kv.2) st0
  let st2 := createFormFileWrite st1 paramFile.key paramFile.fileName paramFile.content
  let hs := setHeadersOverwrite (formDataContentType p.boundary) headers
  let st3 := closeWriter st2
  decodeFinish p.jsonErr responseStructNonNil (str "POST") hs
    (sendHttpReq p (str "POST") urlString [] (multipartBytes p.boundary st3) hs
      cookie transport timeout)

/-- `src/unnamed/part_000` `httpReqAuthFile`: the shared body of the
authorized file-upload variants. -/
def httpReqAuthFile (p : Platform) (method urlString token : Str) (paramTexts : HMap)
    (paramFile : FileItem) (headers : Option HMap) (cookie : Option Str)
    (transport : Bool) (timeout : Int) (responseStructNonNil : Bool) : WrapperOutcome :=
  let st0 : MultipartState := { parts := [], closed := false }
  let st1 := paramTexts.foldl (fun st kv => writeField st kv.1 kv.2) st0
  let st2 := createFormFileWrite st1 paramFile.key paramFile.fileName paramFile.content
  let hs := setHeadersOverwrite (formDataContentType p.boundary) headers
  let st3 := closeWriter st2
  decodeFinish p.jsonErr responseStructNonNil method hs
    (sendHttpReq p method urlString token (multipartBytes p.boundary st3) hs
      cookie transport timeout)

/-- `src/unnamed/part_000` `HttpReqAuthPutFile` delegates with method PUT. -/
def HttpReqAuthPutFile (p : Platform) (urlString token : Str) (paramTexts : HMap)
    (paramFile : FileItem) (headers : Option HMap) (cookie : Option Str)
    (transport : Bool) (timeout : Int) (responseStructNonNil : Bool) : WrapperOutcome :=
  httpReqAuthFile p (str "PUT") urlString token paramTexts paramFile headers cookie
    transport timeout responseStructNonNil

/-- `src/unnamed/part_000` `HttpReqAuthPostFile` delegates with method POST. -/
def HttpReqAuthPostFile (p : Platform) (urlString token : Str) (paramTexts : HMap)
    (paramFile : FileItem) (headers : Option HMap) (cookie : Option Str)
    (transport : Bool) (timeout : Int) (responseStructNonNil : Bool) : WrapperOutcome :=
  httpReqAuthFile p (str "POST") urlString token paramTexts paramFile headers cookie
    transport timeout responseStructNonNil

end utils

namespace utilsV1

/-- `src/unnamed/part_001` `sendHttpReq` builds
`http.Client{Timeout: 30 * time.Second}`: a fixed 30-second client timeout,
with no caller-supplied timeout parameter. -/
def clientTimeoutSeconds : Int := 30

end utilsV1

namespace httputils

/-- `src/http-utils.go` line 73 builds `client := &http.Client{}`: the
`Timeout` field is left at its zero value, which in Go means no timeout. -/
def clientTimeoutSeconds : Int := 0

/-- `src/http-utils.go` `sendHttpReq`: as the `utils` dispatcher but with no
token, no transport and no timeout parameter; the client is built with no
timeout.  The query re-encoding block likewise re-assigns only the local
`urlString`. -/
def sendHttpReq (p : Platform) (method urlString : Str) (data : Bytes)
    (headers : HMap) (cookie : Option Str) : SendOutcome :=
  let client : Client := { timeoutSeconds := clientTimeoutSeconds, hasTransport := false }
  match newRequest p method urlString data with
  | Except.error e =>
      { status := 0, buf := none,
        err := some { url := urlString, httpCode := 0, message := [], body := none,
                      cause := some (Cause.newReqErr e) },
        dispatched := none, clientTimeout := client.timeoutSeconds }
  | Except.ok request0 =>
      match reencodeStep p urlString with
      | Except.error re =>
          { status := 0, buf := none, err := some re, dispatched := none,
            clientTimeout := client.timeoutSeconds }
      | Except.ok urlString2 =>
          dispatchPhase p client (buildRequest request0 cookie headers [])
            urlString2 data

/-- `src/http-utils.go` `HttpReqXML`.  Unlike every other method-accepting
entry point in the repository, this function has no
`strings.TrimSpace(strings.ToUpper(method))` statement: the caller's method
string is passed to the dispatcher unchanged. -/
def HttpReqXML (p : Platform) (method urlString : Str) (body : Bytes)
    (headers : Option HMap) (cookie : Option Str)
    (resultStructNonNil : Bool) : WrapperOutcome :=
  let hs := setHeadersOverwrite (str "text/xml") headers
  decodeFinish p.xmlErr resultStructNonNil method hs
    (sendHttpReq p method urlString body hs cookie)

/-- `src/http-utils.go` `HttpReqJSON` (this one does normalize the method). -/
def HttpReqJSON (p : Platform) (method urlString : Str) (body : Bytes)
    (headers : Option HMap) (cookie : Option Str)
    (resultStructNonNil : Bool) : WrapperOutcome :=
  let m := trimUpper method
  let hs := setHeadersOverwrite (str "application/json") headers
  decodeFinish p.jsonErr resultStructNonNil m hs
    (sendHttpReq p m urlString body hs cookie)

end httputils

/-! ## A concrete test environment

Executable instances of the platform services, used to evaluate the model on
concrete inputs.  They follow the behaviour of the Go standard library on the
URL/method shapes exercised below: `url.Parse` splits at the first query
delimiter, `url.Values.Encode` re-serialises the parameters sorted by key,
and plain alphabetic tokens are valid methods. -/

/-- Split a string at the first `?`: the URL base and the raw query. -/
def splitFirstQ : Str → Str × Str
  | [] => ([], [])
  | c :: cs =>
      if c = '?' then ([], cs)
      else
        let r := splitFirstQ cs
        (c :: r.1, r.2)

/-- A simple URL parser splitting at the first `?` (Go's `url.Parse` accepts
all the URL strings used in the concrete runs below). -/
def splitURL (s : Str) : URLv :=
  { base := (splitFirstQ s).1, rawQuery := (splitFirstQ s).2 }

/-- Split a raw query at every `&`. -/
def splitAmpAux : Str → Str → List Str
  | [], acc => [acc.reverse]
  | c :: cs, acc =>
      if c = '&' then acc.reverse :: splitAmpAux cs []
      else splitAmpAux cs (c :: acc)

/-- Join query parameters with `&`. -/
def joinAmp : List Str → Str
  | [] => []
  | [x] => x
  | x :: y :: xs => x ++ '&' :: joinAmp (y :: xs)

/-- Lexicographic comparison on character lists. -/
def strLeB : Str → Str → Bool
  | [], _ => true
  | _ :: _, [] => false
  | a :: as, b :: bs => if a = b then strLeB as bs else decide (a < b)

/-- Insertion into a sorted list. -/
def insertSorted (x : Str) : List Str → List Str
  | [] => [x]
  | y :: ys => if strLeB x y then x :: y :: ys else y :: insertSorted x ys

/-- Insertion sort. -/
def sortStrs : List Str → List Str
  | [] => []
  | x :: xs => insertSorted x (sortStrs xs)

/-- A concrete stand-in for `Query()` followed by `url.Values.Encode()`:
the parameters re-serialised sorted by key (`Encode` sorts keys). -/
def canonQuery (q : Str) : Str := joinAmp (sortStrs (splitAmpAux q []))

/-- The base test environment: non-empty alphabetic methods are valid, every
URL string parses (as Go's lenient `url.Parse` does on these inputs), the
server answers 200 with an empty body, and both codecs accept everything. -/
def testPlatform : Platform :=
  { validMethod := fun m => !m.isEmpty && m.all Char.isAlpha
    parseURL := fun s => some (splitURL s)
    queryReencode := canonQuery
    doReq := fun _ _ => Except.ok { statusCode := 200, bodyRead := Except.ok [] }
    boundary := str "b0undary"
    jsonErr := fun _ => none
    xmlErr := fun _ => none }

/-- A test environment whose server always yields the given response. -/
def platformResp (r : Response) : Platform :=
  { testPlatform with doReq := fun _ _ => Except.ok r }

/-- A test environment where every network round trip fails. -/
def platformNetFail (msg : Str) : Platform :=
  { testPlatform with doReq := fun _ _ => Except.error msg }

/-- A test environment whose server yields the given response and whose JSON
decoder rejects every body with the given error. -/
def platformBadJSON (r : Response) (msg : Str) : Platform :=
  { testPlatform with doReq := fun _ _ => Except.ok r, jsonErr := fun _ => some msg }

/-- A 404 response whose body reads as `not found`. -/
def resp404 : Response :=
  { statusCode := 404, bodyRead := Except.ok (strBytes (str "not found")) }

/-- A 503 response whose body read fails. -/
def respReadFail : Response :=
  { statusCode := 503, bodyRead := Except.error (str "read: connection reset") }

/-- A 200 response with a one-byte body. -/
def respOkBody : Response :=
  { statusCode := 200, bodyRead := Except.ok [123] }

/-- The request the test parser builds for a plain GET of `http://h/p`. -/
def reqGet (data : Bytes) : Request :=
  { method := str "GET", url := { base := str "http://h/p", rawQuery := [] },
    body := data, header := [] }

/-- The request the test parser builds for a GET of `http://h/p?x=1`. -/
def reqGetQ : Request :=
  { method := str "GET", url := { base := str "http://h/p", rawQuery := str "x=1" },
    body := [], header := [] }

/-- The error returned for an invalid method in the test environment. -/
def reBadMethod : ResourceError :=
  { url := str "http://h/p", httpCode := 0, message := [], body := none,
    cause := some (Cause.newReqErr (str "net/http: invalid method")) }

/-- The multipart request dispatched by the concrete file-upload run below. -/
def c8reqWitness : Request :=
  { method := str "POST", url := { base := str "http://h/p", rawQuery := [] },
    body := multipartBytes (str "b0undary")
      { parts := [Part.textField (str "a") (str "1"),
                  Part.filePart (str "file") (str "f.txt") [104]],
        closed := true },
    header := [(str "Content-Type", formDataContentType (str "b0undary"))] }

/-! ## Shared lemmas -/

/-- `http.NewRequest` succeeds only when `url.Parse` of the same URL string
succeeds, and the parsed URL is the request's URL. -/
theorem newRequest_parseURL (p : Platform) (method urlString : Str) (data : Bytes)
    (req : Request) (h : newRequest p method urlString data = Except.ok req) :
    p.parseURL urlString = some req.url := by
  simp only [newRequest] at h
  generalize (if method.isEmpty = true then str "GET" else method) = m at h
  split at h
  · split at h
    next u heq => injection h with h'; subst h'; exact heq
    next heq => cases h
  · cases h

/-- The re-encode block succeeds whenever the URL string parses. -/
theorem reencodeStep_ok (p : Platform) (urlString : Str) (uv : URLv)
    (hp : p.parseURL urlString = some uv) :
    reencodeStep p urlString
      = Except.ok (if containsQuery urlString
          then urlvToString { uv with rawQuery := p.queryReencode uv.rawQuery }
          else urlString) := by
  unfold reencodeStep
  by_cases hq : containsQuery urlString
  · simp [hq, hp]
  · simp [hq]

/-- No error produced after the network phase carries the re-parse cause. -/
theorem dispatchPhase_cause_not_reparse (p : Platform) (client : Client)
    (request : Request) (urlString2 : Str) (data : Bytes) (re : ResourceError)
    (h : (dispatchPhase p client request urlString2 data).err = some re) :
    re.cause ≠ some Cause.reparse := by
  unfold dispatchPhase at h
  split at h
  · injection h with h'; subst h'; simp
  · split at h
    · injection h with h'; subst h'; simp
    · split at h
      · injection h with h'; subst h'; simp
      · cases h

/-- The network phase records the client's timeout unchanged. -/
theorem dispatchPhase_clientTimeout (p : Platform) (client : Client)
    (request : Request) (urlString2 : Str) (data : Bytes) :
    (dispatchPhase p client request urlString2 data).clientTimeout
      = client.timeoutSeconds := by
  unfold dispatchPhase
  split
  · rfl
  · split
    · rfl
    · split <;> rfl

/-- The dispatcher of `part_000` always builds its client with the effective
timeout, on every control path. -/
theorem sendHttpReq_clientTimeout (p : Platform) (method urlString token : Str)
    (data : Bytes) (headers : HMap) (cookie : Option Str) (transport : Bool)
    (timeout : Int) :
    (utils.sendHttpReq p method urlString token data headers cookie transport
        timeout).clientTimeout = utils.effectiveTimeoutSeconds timeout := by
  simp only [utils.sendHttpReq]
  split
  · rfl
  · split
    · rfl
    · exact dispatchPhase_clientTimeout ..

/-- The dispatcher of `http-utils.go` always builds its client with no
timeout, on every control path. -/
theorem httputils_sendHttpReq_clientTimeout (p : Platform) (method urlString : Str)
    (data : Bytes) (headers : HMap) (cookie : Option Str) :
    (httputils.sendHttpReq p method urlString data headers cookie).clientTimeout
      = httputils.clientTimeoutSeconds := by
  simp only [httputils.sendHttpReq]
  split
  · rfl
  · split
    · rfl
    · exact dispatchPhase_clientTimeout ..

/-- The decode tail passes the recorded method through unchanged. -/
theorem decodeFinish_methodUsed (ce : Bytes → Option Str) (rs : Bool)
    (mu : Str) (hu : HMap) (o : SendOutcome) :
    (decodeFinish ce rs mu hu o).methodUsed = mu := by
  simp only [decodeFinish]
  split
  · rfl
  · split
    · split <;> rfl
    · rfl

/-- The decode tail passes the recorded header map through unchanged. -/
theorem decodeFinish_headersUsed (ce : Bytes → Option Str) (rs : Bool)
    (mu : Str) (hu : HMap) (o : SendOutcome) :
    (decodeFinish ce rs mu hu o).headersUsed = hu := by
  simp only [decodeFinish]
  split
  · rfl
  · split
    · split <;> rfl
    · rfl

/-- The decode tail passes the dispatcher's status code through unchanged. -/
theorem decodeFinish_status (ce : Bytes → Option Str) (rs : Bool)
    (mu : Str) (hu : HMap) (o : SendOutcome) :
    (decodeFinish ce rs mu hu o).status = o.status := by
  simp only [decodeFinish]
  split
  · rfl
  · split
    · split <;> rfl
    · rfl

/-- The decode tail records the dispatcher outcome unchanged. -/
theorem decodeFinish_sent (ce : Bytes → Option Str) (rs : Bool)
    (mu : Str) (hu : HMap) (o : SendOutcome) :
    (decodeFinish ce rs mu hu o).sent = o := by
  simp only [decodeFinish]
  split
  · rfl
  · split
    · split <;> rfl
    · rfl

/-- Characterisation of the `part_000` dispatcher once `http.NewRequest` has
succeeded: the run is the network phase applied to the built request and the
(possibly re-encoded) local URL string. -/
theorem sendHttpReq_ok (p : Platform) (method urlString token : Str) (data : Bytes)
    (headers : HMap) (cookie : Option Str) (transport : Bool) (timeout : Int)
    (req : Request) (hreq : newRequest p method urlString data = Except.ok req) :
    utils.sendHttpReq p method urlString token data headers cookie transport timeout
      = dispatchPhase p
          { timeoutSeconds := utils.effectiveTimeoutSeconds timeout,
            hasTransport := transport }
          (buildRequest req cookie headers token)
          (if containsQuery urlString
            then urlvToString { req.url with rawQuery := p.queryReencode req.url.rawQuery }
            else urlString)
          data := by
  have hp := newRequest_parseURL p method urlString data req hreq
  simp only [utils.sendHttpReq]
  rw [hreq, reencodeStep_ok p urlString req.url hp]

/-- Characterisation of the `http-utils.go` dispatcher once `http.NewRequest`
has succeeded. -/
theorem httputils_sendHttpReq_ok (p : Platform) (method urlString : Str)
    (data : Bytes) (headers : HMap) (cookie : Option Str)
    (req : Request) (hreq : newRequest p method urlString data = Except.ok req) :
    httputils.sendHttpReq p method urlString data headers cookie
      = dispatchPhase p
          { timeoutSeconds := httputils.clientTimeoutSeconds, hasTransport := false }
          (buildRequest req cookie headers [])
          (if containsQuery urlString
            then urlvToString { req.url with rawQuery := p.queryReencode req.url.rawQuery }
            else urlString)
          data := by
  have hp := newRequest_parseURL p method urlString data req hreq
  simp only [httputils.sendHttpReq]
  rw [hreq, reencodeStep_ok p urlString req.url hp]

/-- Looking up a key just set finds the new value. -/
theorem mapGet_mapSet (m : HMap) (k v : Str) : mapGet (mapSet m k v) k = some v := by
  induction m with
  | nil => simp [mapSet, mapGet]
  | cons kv rest ih =>
      obtain ⟨k0, v0⟩ := kv
      by_cases hk : k0 = k
      · simp [mapSet, mapGet, hk]
      · simp [mapSet, mapGet, hk, ih]

/-- Looking up the content type after the overwriting header default always
finds the variant's content type. -/
theorem mapGet_setHeadersOverwrite (ct : Str) (headers : Option HMap) :
    mapGet (setHeadersOverwrite ct headers) (str "Content-Type") = some ct := by
  cases headers with
  | none => rfl
  | some m => exact mapGet_mapSet m _ ct

/-- Looking up the content type after the write-if-absent header default finds
the caller's value when present and the variant's default otherwise. -/
theorem mapGet_setHeadersIfAbsent (ct : Str) (m : HMap) :
    mapGet (setHeadersIfAbsent ct (some m)) (str "Content-Type")
      = some ((mapGet m (str "Content-Type")).getD ct) := by
  unfold setHeadersIfAbsent
  cases hg : mapGet m (str "Content-Type") with
  | some v => simp [hg]
  | none => simp [hg, mapGet_mapSet]

/-- Case split of the decode tail: the codec runs exactly when the dispatcher
error is nil, the output structure is non-nil and the body is non-empty. -/
theorem decodeFinish_err_decode (ce : Bytes → Option Str) (rs : Bool)
    (mu : Str) (hu : HMap) (o : SendOutcome) (bs : Bytes)
    (h1 : o.err = none) (h2 : o.buf = some bs) (h3 : rs = true) (h4 : bs ≠ []) :
    (decodeFinish ce rs mu hu o).err = Option.map WErr.codec (ce bs) := by
  have hbs : bs.isEmpty = false := by
    cases bs
    · exact absurd rfl h4
    · rfl
  cases hce : ce bs <;> simp [decodeFinish, h1, h2, h3, hbs, hce]

/-- The decode tail leaves a nil error alone when the output structure is nil
or the body is empty. -/
theorem decodeFinish_err_skip (ce : Bytes → Option Str) (rs : Bool)
    (mu : Str) (hu : HMap) (o : SendOutcome)
    (h1 : o.err = none) (h : rs = false ∨ (o.buf.getD []).isEmpty = true) :
    (decodeFinish ce rs mu hu o).err = none := by
  rcases h with h | h <;> simp [decodeFinish, h1, h]

/-- The decode tail wraps a dispatcher error as a resource error, untouched by
the codec. -/
theorem decodeFinish_err_resource (ce : Bytes → Option Str) (rs : Bool)
    (mu : Str) (hu : HMap) (o : SendOutcome) (re : ResourceError)
    (h : o.err = some re) :
    (decodeFinish ce rs mu hu o).err = some (WErr.resource re) := by
  simp [decodeFinish, h]

/-- The network phase always records the request it was handed. -/
theorem dispatchPhase_dispatched (p : Platform) (client : Client)
    (request : Request) (urlString2 : Str) (data : Bytes) :
    (dispatchPhase p client request urlString2 data).dispatched = some request := by
  unfold dispatchPhase
  split
  · rfl
  · split
    · rfl
    · split <;> rfl

/-- The header-copy loop does not change the request body. -/
theorem addHeaders_body : ∀ (hs : HMap) (r : Request), (addHeaders r hs).body = r.body
  | [], _ => rfl
  | kv :: rest, r => by
      show (addHeaders (addHeaderEntry r kv.1 kv.2) rest).body = r.body
      rw [addHeaders_body rest]
      rfl

/-- A single `Header.Add` does not change the request body. -/
theorem addHeaderEntry_body (r : Request) (k v : Str) :
    (addHeaderEntry r k v).body = r.body := rfl

/-- The cookie, header and token additions do not change the request body. -/
theorem buildRequest_body (r0 : Request) (cookie : Option Str) (headers : HMap)
    (token : Str) :
    (buildRequest r0 cookie headers token).body = r0.body := by
  simp only [buildRequest]
  split
  · rw [addHeaderEntry_body, addHeaders_body]
    cases cookie <;> rfl
  · rw [addHeaders_body]
    cases cookie <;> rfl

/-- A successfully built request carries the body bytes it was given. -/
theorem newRequest_body (p : Platform) (method urlString : Str) (data : Bytes)
    (req : Request) (h : newRequest p method urlString data = Except.ok req) :
    req.body = data := by
  simp only [newRequest] at h
  generalize (if method.isEmpty = true then str "GET" else method) = m at h
  split at h
  · split at h
    next u heq => injection h with h'; subst h'; rfl
    next heq => cases h
  · cases h

/-- The `WriteField` loop appends one text part per caller-supplied field, in
iteration order. -/
theorem foldl_writeField : ∀ (texts : HMap) (st : MultipartState),
    texts.foldl (fun s kv => writeField s kv.1 kv.2) st
      = { st with
          parts := st.parts ++ texts.map (fun kv => Part.textField kv.1 kv.2) }
  | [], st => by simp
  | kv :: rest, st => by
      show List.foldl (fun s kv => writeField s kv.1 kv.2) (writeField st kv.1 kv.2)
          rest = _
      rw [foldl_writeField rest]
      simp [writeField]

/-- The nil-headers branch of the overwriting default. -/
theorem setHeadersOverwrite_none (ct : Str) :
    setHeadersOverwrite ct none = [(str "Content-Type", ct)] := rfl

/-- The nil-headers branch of the write-if-absent default. -/
theorem setHeadersIfAbsent_none (ct : Str) :
    setHeadersIfAbsent ct none = [(str "Content-Type", ct)] := rfl

/-- The non-nil branch of the write-if-absent default. -/
theorem setHeadersIfAbsent_some (ct : Str) (m : HMap) :
    setHeadersIfAbsent ct (some m)
      = (match mapGet m (str "Content-Type") with
          | some _ => m
          | none => mapSet m (str "Content-Type") ct) := rfl

/-! ## The claims -/

/-- **C1** (code bug).  On the URL `http://h/p?b=2&a=1` the canonical
re-encoding of the query is `a=1&b=2`, yet the request dispatched by
`sendHttpReq` still carries the original query `b=2&a=1`: the re-encoded URL
is assigned only to the local `urlString` (used in later error values), never
to the already-built request handed to `client.Do`. -/
theorem c1_reencoding_not_dispatched :
    ∃ req : Request,
      (utils.sendHttpReq testPlatform (str "GET") (str "http://h/p?b=2&a=1") [] []
          [] none false 0).dispatched = some req
      ∧ req.url.rawQuery = str "b=2&a=1"
      ∧ testPlatform.queryReencode (str "b=2&a=1") = str "a=1&b=2"
      ∧ req.url.rawQuery ≠ testPlatform.queryReencode (str "b=2&a=1") :=
  ⟨_, rfl, by decide, by decide, by decide⟩

/-- **C2**.  Whenever the server answers with a status code ≥ 400 and the
body is read successfully, the dispatcher returns the true status code and
the response body bytes, together with a ResourceError whose `Body` is the
string form of the original outgoing request body (not the response body)
and whose `Message` is the fixed string `incorrect response.StatusCode`. -/
theorem c2_status_ge_400_echoes_request_body (p : Platform)
    (method urlString token : Str) (data : Bytes) (headers : HMap)
    (cookie : Option Str) (transport : Bool) (timeout : Int)
    (req : Request) (resp : Response) (bs : Bytes)
    (hreq : newRequest p method urlString data = Except.ok req)
    (hdo : p.doReq = fun _ _ => Except.ok resp)
    (hread : resp.bodyRead = Except.ok bs)
    (hcode : 400 ≤ resp.statusCode) :
    (utils.sendHttpReq p method urlString token data headers cookie transport
        timeout).status = resp.statusCode
    ∧ (utils.sendHttpReq p method urlString token data headers cookie transport
        timeout).buf = some bs
    ∧ ∃ re : ResourceError,
        (utils.sendHttpReq p method urlString token data headers cookie transport
            timeout).err = some re
        ∧ re.body = some data
        ∧ re.message = str "incorrect response.StatusCode"
        ∧ re.httpCode = resp.statusCode := by
  have h399 : resp.statusCode > 399 := by omega
  rw [sendHttpReq_ok p method urlString token data headers cookie transport timeout
    req hreq]
  unfold dispatchPhase
  rw [hdo]
  simp only [hread]
  rw [if_pos h399]
  exact ⟨rfl, rfl, ⟨_, rfl, rfl, rfl, rfl⟩⟩

/-- **C4** counterexample.  The `httputils` dispatcher (`src/http-utils.go`)
builds its client with the `Timeout` field left at zero — no positive timeout
and not the 30-second default — so the round trip of that variant is not
bounded by a configured timeout. -/
theorem c4_httputils_has_no_timeout :
    (httputils.sendHttpReq testPlatform (str "GET") (str "http://h/p") [] []
        none).clientTimeout = 0
    ∧ ¬(0 < (httputils.sendHttpReq testPlatform (str "GET") (str "http://h/p") [] []
        none).clientTimeout) := by
  constructor
  · decide
  · decide

/-- **C4** as amended.  The `part_000` dispatcher always binds its client to
the caller timeout when positive and to the 30-second default otherwise (a
positive bound in all cases); the `part_001` dispatcher uses a fixed 30-second
timeout; only the `http-utils.go` dispatcher builds its client with no
timeout at all. -/
theorem c4_amended_timeout_selection (p : Platform) (method urlString token : Str)
    (data : Bytes) (headers : HMap) (cookie : Option Str) (transport : Bool)
    (timeout : Int) :
    ((utils.sendHttpReq p method urlString token data headers cookie transport
        timeout).clientTimeout = if timeout > 0 then timeout else 30)
    ∧ 0 < (utils.sendHttpReq p method urlString token data headers cookie transport
        timeout).clientTimeout
    ∧ utilsV1.clientTimeoutSeconds = 30
    ∧ (httputils.sendHttpReq p method urlString data headers cookie).clientTimeout
        = httputils.clientTimeoutSeconds := by
  have h1 := sendHttpReq_clientTimeout p method urlString token data headers cookie
    transport timeout
  refine ⟨by rw [h1]; rfl, ?_, rfl,
    httputils_sendHttpReq_clientTimeout p method urlString data headers cookie⟩
  rw [h1]
  unfold utils.effectiveTimeoutSeconds
  split <;> omega

/-- **C5** counterexample.  `httputils.HttpReqXML` (`src/http-utils.go`) does
not normalize its method argument: with method `get` the dispatched request's
method is `get`, not `GET` = TrimSpace(ToUpper("get")). -/
theorem c5_httputils_xml_method_not_normalized :
    (httputils.HttpReqXML testPlatform (str "get") (str "http://h/p") [] none none
        false).methodUsed = str "get"
    ∧ trimUpper (str "get") = str "GET"
    ∧ (httputils.HttpReqXML testPlatform (str "get") (str "http://h/p") [] none none
        false).methodUsed ≠ trimUpper (str "get")
    ∧ ∃ req : Request,
        (httputils.HttpReqXML testPlatform (str "get") (str "http://h/p") [] none none
            false).sent.dispatched = some req
        ∧ req.method = str "get" := by
  refine ⟨by decide, by decide, by decide, ⟨_, rfl, by decide⟩⟩

/-- **C5** as amended.  Every method-accepting entry point of `part_000`, and
`HttpReqJSON` of `http-utils.go`, passes TrimSpace(ToUpper(method)) to the
dispatcher; `HttpReqXML` of `http-utils.go` passes the method unchanged. -/
theorem c5_amended_method_normalization (p : Platform) (method urlString token : Str)
    (data : Bytes) (headers : Option HMap) (cookie : Option Str) (transport : Bool)
    (timeout : Int) (rs : Bool) :
    (utils.HttpReqAuthXML p method urlString token data headers cookie transport
        timeout rs).methodUsed = trimUpper method
    ∧ (utils.HttpReqAuthJSON p method urlString token data headers cookie transport
        timeout rs).methodUsed = trimUpper method
    ∧ (utils.HttpReqXML p method urlString data headers cookie transport
        timeout rs).methodUsed = trimUpper method
    ∧ (utils.HttpReqJSON p method urlString data headers cookie transport
        timeout rs).methodUsed = trimUpper method
    ∧ (httputils.HttpReqJSON p method urlString data headers cookie rs).methodUsed
        = trimUpper method
    ∧ (httputils.HttpReqXML p method urlString data headers cookie rs).methodUsed
        = method := by
  refine ⟨?_, ?_, ?_, ?_, ?_, ?_⟩
  all_goals
    simp only [utils.HttpReqAuthXML, utils.HttpReqAuthJSON, utils.HttpReqXML,
      utils.HttpReqJSON, httputils.HttpReqJSON, httputils.HttpReqXML,
      decodeFinish_methodUsed]

/-- **C7**.  A request-construction failure yields a zero status, nil body
and a ResourceError carrying the URL and the cause with HTTP code 0; a
network-transmission failure yields the same shape, the URL field holding the
(possibly re-encoded) URL string. -/
theorem c7_early_failures (p : Platform) (method urlString token : Str)
    (data : Bytes) (headers : HMap) (cookie : Option Str) (transport : Bool)
    (timeout : Int) (e msg : Str) (req : Request) :
    (newRequest p method urlString data = Except.error e →
        utils.sendHttpReq p method urlString token data headers cookie transport
            timeout
          = { status := 0, buf := none,
              err := some { url := urlString, httpCode := 0, message := [],
                            body := none, cause := some (Cause.newReqErr e) },
              dispatched := none,
              clientTimeout := utils.effectiveTimeoutSeconds timeout })
    ∧ (newRequest p method urlString data = Except.ok req →
        p.doReq = (fun _ _ => Except.error msg) →
        (utils.sendHttpReq p method urlString token data headers cookie transport
            timeout).status = 0
        ∧ (utils.sendHttpReq p method urlString token data headers cookie transport
            timeout).buf = none
        ∧ ∃ re : ResourceError,
            (utils.sendHttpReq p method urlString token data headers cookie transport
                timeout).err = some re
            ∧ re.httpCode = 0
            ∧ re.cause = some (Cause.transportErr msg)
            ∧ re.url = (if containsQuery urlString
                then urlvToString { req.url with
                  rawQuery := p.queryReencode req.url.rawQuery }
                else urlString)) := by
  constructor
  · intro h
    simp only [utils.sendHttpReq]
    rw [h]
  · intro hreq hdo
    rw [sendHttpReq_ok p method urlString token data headers cookie transport timeout
      req hreq]
    unfold dispatchPhase
    rw [hdo]
    exact ⟨rfl, rfl, ⟨_, rfl, rfl, rfl, rfl⟩⟩

/-- **C9**.  When the response arrives but reading its body fails, the
returned status code is 0 (the zero value) even though the ResourceError
carries the actual server-reported status code in its HTTPCode field. -/
theorem c9_read_failure_zero_status (p : Platform) (method urlString token : Str)
    (data : Bytes) (headers : HMap) (cookie : Option Str) (transport : Bool)
    (timeout : Int) (req : Request) (resp : Response) (msg : Str)
    (hreq : newRequest p method urlString data = Except.ok req)
    (hdo : p.doReq = fun _ _ => Except.ok resp)
    (hread : resp.bodyRead = Except.error msg) :
    (utils.sendHttpReq p method urlString token data headers cookie transport
        timeout).status = 0
    ∧ (utils.sendHttpReq p method urlString token data headers cookie transport
        timeout).buf = none
    ∧ ∃ re : ResourceError,
        (utils.sendHttpReq p method urlString token data headers cookie transport
            timeout).err = some re
        ∧ re.httpCode = resp.statusCode
        ∧ re.cause = some (Cause.readErr msg) := by
  rw [sendHttpReq_ok p method urlString token data headers cookie transport timeout
    req hreq]
  unfold dispatchPhase
  rw [hdo]
  simp only [hread]
  exact ⟨trivial, trivial, ⟨_, rfl, rfl, rfl⟩⟩

/-- **C10**.  The re-parse error branch inside the query re-encoding block is
unreachable: `http.NewRequest` succeeding implies `url.Parse` of the same URL
string succeeds, and consequently no error returned by the dispatcher ever
carries the re-parse cause. -/
theorem c10_reparse_branch_unreachable (p : Platform) (method urlString : Str)
    (data : Bytes) :
    (∀ req : Request, newRequest p method urlString data = Except.ok req →
        (p.parseURL urlString).isSome = true)
    ∧ (∀ (token : Str) (headers : HMap) (cookie : Option Str) (transport : Bool)
        (timeout : Int) (re : ResourceError),
        (utils.sendHttpReq p method urlString token data headers cookie transport
            timeout).err = some re →
        re.cause ≠ some Cause.reparse) := by
  constructor
  · intro req h
    rw [newRequest_parseURL p method urlString data req h]
    rfl
  · intro token headers cookie transport timeout re h
    cases hreq : newRequest p method urlString data with
    | error e =>
        simp only [utils.sendHttpReq, hreq] at h
        injection h with h'
        subst h'
        simp
    | ok req =>
        rw [sendHttpReq_ok p method urlString token data headers cookie transport
          timeout req hreq] at h
        exact dispatchPhase_cause_not_reparse _ _ _ _ _ _ h


/-- **C3**.  With nil headers every entry point creates a fresh map holding
exactly the variant's content type; with non-nil headers the content type is
overwritten unconditionally in every variant except `HttpReqPostFormXML`,
which preserves the caller's value and writes the default only when the key
is absent. -/
theorem c3_content_type_defaulting (p : Platform) (method urlString token : Str)
    (data : Bytes) (cookie : Option Str) (transport : Bool) (timeout : Int)
    (rs : Bool) (m : HMap) (texts : HMap) (f : FileItem) :
    (utils.HttpReqAuthJSON p method urlString token data none cookie transport
        timeout rs).headersUsed
      = [(str "Content-Type", str "application/json")]
    ∧ (utils.HttpReqAuthXML p method urlString token data none cookie transport
        timeout rs).headersUsed
      = [(str "Content-Type", str "text/xml")]
    ∧ (utils.HttpReqJSON p method urlString data none cookie transport
        timeout rs).headersUsed
      = [(str "Content-Type", str "application/json")]
    ∧ (utils.HttpReqXML p method urlString data none cookie transport
        timeout rs).headersUsed
      = [(str "Content-Type", str "text/xml")]
    ∧ (utils.HttpReqPostFormJSON p urlString data none cookie transport
        timeout rs).headersUsed
      = [(str "Content-Type", str "application/x-www-form-urlencoded")]
    ∧ (utils.HttpReqPostFormXML p urlString data none cookie transport
        timeout rs).headersUsed
      = [(str "Content-Type", str "application/x-www-form-urlencoded")]
    ∧ (utils.HttpReqPostFile p urlString texts f none cookie transport
        timeout rs).headersUsed
      = [(str "Content-Type", formDataContentType p.boundary)]
    ∧ (utils.HttpReqAuthPutFile p urlString token texts f none cookie transport
        timeout rs).headersUsed
      = [(str "Content-Type", formDataContentType p.boundary)]
    ∧ (utils.HttpReqAuthPostFile p urlString token texts f none cookie transport
        timeout rs).headersUsed
      = [(str "Content-Type", formDataContentType p.boundary)]
    ∧ mapGet (utils.HttpReqAuthJSON p method urlString token data (some m) cookie
        transport timeout rs).headersUsed (str "Content-Type")
      = some (str "application/json")
    ∧ mapGet (utils.HttpReqAuthXML p method urlString token data (some m) cookie
        transport timeout rs).headersUsed (str "Content-Type")
      = some (str "text/xml")
    ∧ mapGet (utils.HttpReqJSON p method urlString data (some m) cookie transport
        timeout rs).headersUsed (str "Content-Type")
      = some (str "application/json")
    ∧ mapGet (utils.HttpReqXML p method urlString data (some m) cookie transport
        timeout rs).headersUsed (str "Content-Type")
      = some (str "text/xml")
    ∧ mapGet (utils.HttpReqPostFormJSON p urlString data (some m) cookie transport
        timeout rs).headersUsed (str "Content-Type")
      = some (str "application/x-www-form-urlencoded")
    ∧ mapGet (utils.HttpReqPostFile p urlString texts f (some m) cookie transport
        timeout rs).headersUsed (str "Content-Type")
      = some (formDataContentType p.boundary)
    ∧ mapGet (utils.HttpReqAuthPutFile p urlString token texts f (some m) cookie
        transport timeout rs).headersUsed (str "Content-Type")
      = some (formDataContentType p.boundary)
    ∧ mapGet (utils.HttpReqAuthPostFile p urlString token texts f (some m) cookie
        transport timeout rs).headersUsed (str "Content-Type")
      = some (formDataContentType p.boundary)
    ∧ mapGet (utils.HttpReqPostFormXML p urlString data (some m) cookie transport
        timeout rs).headersUsed (str "Content-Type")
      = some ((mapGet m (str "Content-Type")).getD
          (str "application/x-www-form-urlencoded"))
    ∧ (utils.HttpReqPostFormXML p urlString data (some m) cookie transport
        timeout rs).headersUsed
      = (match mapGet m (str "Content-Type") with
          | some _ => m
          | none => mapSet m (str "Content-Type")
              (str "application/x-www-form-urlencoded")) := by
  refine ⟨?_, ?_, ?_, ?_, ?_, ?_, ?_, ?_, ?_, ?_, ?_, ?_, ?_, ?_, ?_, ?_, ?_, ?_, ?_⟩
  all_goals
    simp only [utils.HttpReqAuthJSON, utils.HttpReqAuthXML, utils.HttpReqJSON,
      utils.HttpReqXML, utils.HttpReqPostFormJSON, utils.HttpReqPostFormXML,
      utils.HttpReqPostFile, utils.HttpReqAuthPutFile, utils.HttpReqAuthPostFile,
      utils.httpReqAuthFile, decodeFinish_headersUsed, mapGet_setHeadersOverwrite,
      mapGet_setHeadersIfAbsent, setHeadersOverwrite_none, setHeadersIfAbsent_none,
      setHeadersIfAbsent_some]
  cases hg : mapGet m (str "Content-Type") with
  | some v => simp [hg]
  | none => simp [hg, mapGet_mapSet]

/-- **C6**.  Decoding runs exactly when the dispatcher returned no error, the
output structure is non-nil and the response body is non-empty; a decode
failure is the raw codec error (not a Resource Error) in place of the nil
dispatcher error, and the returned status code always remains the
dispatcher's status code.  Stated for the cited `utils.HttpReqAuthJSON`,
`utils.HttpReqPostFormXML` and `httputils.HttpReqJSON` (every other variant
shares `decodeFinish` literally). -/
theorem c6_decode_exactly_when (p : Platform) (method urlString token : Str)
    (data : Bytes) (headers : Option HMap) (cookie : Option Str) (transport : Bool)
    (timeout : Int) (rs : Bool) (bs : Bytes) :
    ((utils.HttpReqAuthJSON p method urlString token data headers cookie transport
        timeout rs).sent.err = none →
      (utils.HttpReqAuthJSON p method urlString token data headers cookie transport
        timeout rs).sent.buf = some bs → rs = true → bs ≠ [] →
      (utils.HttpReqAuthJSON p method urlString token data headers cookie transport
        timeout rs).err = Option.map WErr.codec (p.jsonErr bs))
    ∧ ((utils.HttpReqAuthJSON p method urlString token data headers cookie transport
        timeout rs).sent.err = none →
      (rs = false ∨ (utils.HttpReqAuthJSON p method urlString token data headers
        cookie transport timeout rs).sent.buf = some [] →
      (utils.HttpReqAuthJSON p method urlString token data headers cookie transport
        timeout rs).err = none))
    ∧ (∀ re : ResourceError,
      (utils.HttpReqAuthJSON p method urlString token data headers cookie transport
        timeout rs).sent.err = some re →
      (utils.HttpReqAuthJSON p method urlString token data headers cookie transport
        timeout rs).err = some (WErr.resource re))
    ∧ (utils.HttpReqAuthJSON p method urlString token data headers cookie transport
        timeout rs).status
      = (utils.HttpReqAuthJSON p method urlString token data headers cookie transport
        timeout rs).sent.status
    ∧ ((utils.HttpReqPostFormXML p urlString data headers cookie transport
        timeout rs).sent.err = none →
      (utils.HttpReqPostFormXML p urlString data headers cookie transport
        timeout rs).sent.buf = some bs → rs = true → bs ≠ [] →
      (utils.HttpReqPostFormXML p urlString data headers cookie transport
        timeout rs).err = Option.map WErr.codec (p.xmlErr bs))
    ∧ ((httputils.HttpReqJSON p method urlString data headers cookie rs).sent.err
        = none →
      (httputils.HttpReqJSON p method urlString data headers cookie rs).sent.buf
        = some bs → rs = true → bs ≠ [] →
      (httputils.HttpReqJSON p method urlString data headers cookie rs).err
        = Option.map WErr.codec (p.jsonErr bs))
    ∧ (httputils.HttpReqJSON p method urlString data headers cookie rs).status
      = (httputils.HttpReqJSON p method urlString data headers cookie rs).sent.status
    := by
  refine ⟨?_, ?_, ?_, ?_, ?_, ?_, ?_⟩
  · intro h1 h2 h3 h4
    simp only [utils.HttpReqAuthJSON, decodeFinish_sent] at h1 h2 ⊢
    exact decodeFinish_err_decode p.jsonErr rs _ _ _ bs h1 h2 h3 h4
  · intro h1 h2
    simp only [utils.HttpReqAuthJSON, decodeFinish_sent] at h1 h2 ⊢
    rcases h2 with h2 | h2
    · exact decodeFinish_err_skip p.jsonErr rs _ _ _ h1 (Or.inl h2)
    · exact decodeFinish_err_skip p.jsonErr rs _ _ _ h1 (Or.inr (by rw [h2]; rfl))
  · intro re h1
    simp only [utils.HttpReqAuthJSON, decodeFinish_sent] at h1 ⊢
    exact decodeFinish_err_resource p.jsonErr rs _ _ _ re h1
  · simp only [utils.HttpReqAuthJSON, decodeFinish_sent, decodeFinish_status]
  · intro h1 h2 h3 h4
    simp only [utils.HttpReqPostFormXML, decodeFinish_sent] at h1 h2 ⊢
    exact decodeFinish_err_decode p.xmlErr rs _ _ _ bs h1 h2 h3 h4
  · intro h1 h2 h3 h4
    simp only [httputils.HttpReqJSON, decodeFinish_sent] at h1 h2 ⊢
    exact decodeFinish_err_decode p.jsonErr rs _ _ _ bs h1 h2 h3 h4
  · simp only [httputils.HttpReqJSON, decodeFinish_sent, decodeFinish_status]

/-- **C8**.  In every multipart file-upload call the caller's text fields are
written before the file field, the file field carries the caller-given key,
filename and raw content, the buffer dispatched to the network carries the
closed writer's boundary terminator, and the generated form-data content type
is injected under the same nil/non-nil rule as the other variants. -/
theorem c8_multipart_construction (p : Platform) (method urlString token : Str)
    (texts : HMap) (f : FileItem) (headers : Option HMap) (cookie : Option Str)
    (transport : Bool) (timeout : Int) (rs : Bool) (req : Request)
    (h1 : (utils.HttpReqPostFile p urlString texts f headers cookie transport
        timeout rs).sent.dispatched = some req) :
    req.body = multipartBytes p.boundary
        { parts := texts.map (fun kv => Part.textField kv.1 kv.2)
            ++ [Part.filePart f.key f.fileName f.content],
          closed := true }
    ∧ strBytes (str "--" ++ p.boundary ++ str "--\r\n") <:+ req.body
    ∧ mapGet (utils.HttpReqPostFile p urlString texts f headers cookie transport
        timeout rs).headersUsed (str "Content-Type")
      = some (formDataContentType p.boundary)
    ∧ (utils.HttpReqPostFile p urlString texts f none cookie transport timeout
        rs).headersUsed
      = [(str "Content-Type", formDataContentType p.boundary)]
    ∧ utils.HttpReqAuthPutFile p urlString token texts f headers cookie transport
        timeout rs
      = utils.httpReqAuthFile p (str "PUT") urlString token texts f headers cookie
          transport timeout rs
    ∧ utils.HttpReqAuthPostFile p urlString token texts f headers cookie transport
        timeout rs
      = utils.httpReqAuthFile p (str "POST") urlString token texts f headers cookie
          transport timeout rs
    ∧ (∀ req2 : Request,
        (utils.httpReqAuthFile p method urlString token texts f headers cookie
            transport timeout rs).sent.dispatched = some req2 →
        req2.body = multipartBytes p.boundary
          { parts := texts.map (fun kv => Part.textField kv.1 kv.2)
              ++ [Part.filePart f.key f.fileName f.content],
            closed := true }) := by
  have hbody : ∀ (meth tok : Str) (req2 : Request),
      (utils.httpReqAuthFile p meth urlString tok texts f headers cookie transport
          timeout rs).sent.dispatched = some req2 →
      req2.body = multipartBytes p.boundary
        { parts := texts.map (fun kv => Part.textField kv.1 kv.2)
            ++ [Part.filePart f.key f.fileName f.content],
          closed := true } := by
    intro meth tok req2 h2
    simp only [utils.httpReqAuthFile, decodeFinish_sent] at h2
    cases hreq : newRequest p meth urlString
        (multipartBytes p.boundary
          (closeWriter (createFormFileWrite
            (texts.foldl (fun s kv => writeField s kv.1 kv.2)
              { parts := [], closed := false })
            f.key f.fileName f.content))) with
    | error e =>
        simp only [utils.sendHttpReq, hreq] at h2
        cases h2
    | ok req0 =>
        rw [sendHttpReq_ok p meth urlString tok _ _ cookie transport timeout
          req0 hreq] at h2
        rw [dispatchPhase_dispatched] at h2
        injection h2 with h2
        subst h2
        rw [buildRequest_body, newRequest_body p meth urlString _ req0 hreq]
        rw [foldl_writeField]
        simp [createFormFileWrite, closeWriter]
  have hfile : ∀ req2 : Request,
      (utils.HttpReqPostFile p urlString texts f headers cookie transport
          timeout rs).sent.dispatched = some req2 →
      req2.body = multipartBytes p.boundary
        { parts := texts.map (fun kv => Part.textField kv.1 kv.2)
            ++ [Part.filePart f.key f.fileName f.content],
          closed := true } := by
    intro req2 h2
    simp only [utils.HttpReqPostFile, decodeFinish_sent] at h2
    cases hreq : newRequest p (str "POST") urlString
        (multipartBytes p.boundary
          (closeWriter (createFormFileWrite
            (texts.foldl (fun s kv => writeField s kv.1 kv.2)
              { parts := [], closed := false })
            f.key f.fileName f.content))) with
    | error e =>
        simp only [utils.sendHttpReq, hreq] at h2
        cases h2
    | ok req0 =>
        rw [sendHttpReq_ok p (str "POST") urlString [] _ _ cookie transport timeout
          req0 hreq] at h2
        rw [dispatchPhase_dispatched] at h2
        injection h2 with h2
        subst h2
        rw [buildRequest_body, newRequest_body p (str "POST") urlString _ req0 hreq]
        rw [foldl_writeField]
        simp [createFormFileWrite, closeWriter]
  have hb := hfile req h1
  refine ⟨hb, ?_, ?_, ?_, rfl, rfl, hbody method token⟩
  · rw [hb]
    unfold multipartBytes
    exact ⟨_, rfl⟩
  · simp only [utils.HttpReqPostFile, decodeFinish_headersUsed,
      mapGet_setHeadersOverwrite]
  · simp only [utils.HttpReqPostFile, decodeFinish_headersUsed, setHeadersOverwrite]


/-- Witness for C2: a concrete 404 exchange with request body `ping`. -/
theorem c2_status_ge_400_echoes_request_body_witness :
    (400 ≤ resp404.statusCode)
    ∧ (utils.sendHttpReq (platformResp resp404) (str "GET") (str "http://h/p") []
        (strBytes (str "ping")) [] none false 0).status = resp404.statusCode :=
  ⟨by decide,
    (c2_status_ge_400_echoes_request_body (platformResp resp404) (str "GET")
      (str "http://h/p") [] (strBytes (str "ping")) [] none false 0
      (reqGet (strBytes (str "ping"))) resp404 (strBytes (str "not found"))
      rfl rfl rfl (by decide)).1⟩

/-- Witness for C6: a 200 exchange whose JSON decoder rejects the body. -/
theorem c6_decode_exactly_when_witness :
    (utils.HttpReqAuthJSON (platformBadJSON respOkBody (str "invalid json"))
        (str "GET") (str "http://h/p") [] [] none none false 0 true).sent.err = none
    ∧ (utils.HttpReqAuthJSON (platformBadJSON respOkBody (str "invalid json"))
        (str "GET") (str "http://h/p") [] [] none none false 0 true).sent.buf
      = some [123]
    ∧ (utils.HttpReqAuthJSON (platformBadJSON respOkBody (str "invalid json"))
        (str "GET") (str "http://h/p") [] [] none none false 0 true).err
      = Option.map WErr.codec
          ((platformBadJSON respOkBody (str "invalid json")).jsonErr [123]) :=
  ⟨rfl, rfl,
    (c6_decode_exactly_when (platformBadJSON respOkBody (str "invalid json"))
      (str "GET") (str "http://h/p") [] [] none none false 0 true [123]).1
      rfl rfl rfl (by decide)⟩

/-- Witness for C7: a concrete construction failure and a concrete transport
failure. -/
theorem c7_early_failures_witness :
    newRequest testPlatform (str "bad method") (str "http://h/p") []
      = Except.error (str "net/http: invalid method")
    ∧ utils.sendHttpReq testPlatform (str "bad method") (str "http://h/p") [] [] []
        none false 0
      = { status := 0, buf := none,
          err := some { url := str "http://h/p", httpCode := 0, message := [],
                        body := none,
                        cause := some (Cause.newReqErr
                          (str "net/http: invalid method")) },
          dispatched := none, clientTimeout := utils.effectiveTimeoutSeconds 0 }
    ∧ (utils.sendHttpReq (platformNetFail (str "dial tcp: connection refused"))
        (str "GET") (str "http://h/p") [] [] [] none false 0).status = 0 :=
  ⟨rfl,
    (c7_early_failures testPlatform (str "bad method") (str "http://h/p") [] [] []
      none false 0 (str "net/http: invalid method")
      (str "dial tcp: connection refused") (reqGet [])).1 rfl,
    ((c7_early_failures (platformNetFail (str "dial tcp: connection refused"))
      (str "GET") (str "http://h/p") [] [] [] none false 0
      (str "net/url: parse error") (str "dial tcp: connection refused")
      (reqGet [])).2 rfl rfl).1⟩

/-- Witness for C8: a concrete one-field, one-file upload and its dispatched
multipart body. -/
theorem c8_multipart_construction_witness :
    (utils.HttpReqPostFile testPlatform (str "http://h/p") [(str "a", str "1")]
        { key := str "file", fileName := str "f.txt", content := [104] } none none
        false 0 false).sent.dispatched = some c8reqWitness
    ∧ c8reqWitness.body = multipartBytes (str "b0undary")
        { parts := [Part.textField (str "a") (str "1"),
                    Part.filePart (str "file") (str "f.txt") [104]],
          closed := true } :=
  ⟨rfl,
    (c8_multipart_construction testPlatform (str "PUT") (str "http://h/p") []
      [(str "a", str "1")]
      { key := str "file", fileName := str "f.txt", content := [104] } none none
      false 0 false c8reqWitness rfl).1⟩

/-- Witness for C9: a concrete 503 exchange whose body read fails. -/
theorem c9_read_failure_zero_status_witness :
    respReadFail.bodyRead = Except.error (str "read: connection reset")
    ∧ (utils.sendHttpReq (platformResp respReadFail) (str "GET") (str "http://h/p")
        [] [] [] none false 0).status = 0 :=
  ⟨rfl,
    (c9_read_failure_zero_status (platformResp respReadFail) (str "GET")
      (str "http://h/p") [] [] [] none false 0 (reqGet []) respReadFail
      (str "read: connection reset") rfl rfl rfl).1⟩

/-- Witness for C10: a URL with a query that `NewRequest` accepts parses, and
a concrete dispatcher error that does not carry the re-parse cause. -/
theorem c10_reparse_branch_unreachable_witness :
    newRequest testPlatform (str "GET") (str "http://h/p?x=1") [] = Except.ok reqGetQ
    ∧ (testPlatform.parseURL (str "http://h/p?x=1")).isSome = true
    ∧ (utils.sendHttpReq testPlatform (str "bad method") (str "http://h/p") [] [] []
        none false 0).err = some reBadMethod
    ∧ reBadMethod.cause ≠ some Cause.reparse :=
  ⟨rfl,
    (c10_reparse_branch_unreachable testPlatform (str "GET") (str "http://h/p?x=1")
      []).1 reqGetQ rfl,
    rfl,
    (c10_reparse_branch_unreachable testPlatform (str "bad method")
      (str "http://h/p") []).2 [] [] none false 0 reBadMethod rfl⟩

end HttpUtils
